import Mathlib

/-!
# Verification of the user-api core (validation engine and in-memory user store)

Shallow embedding of the Go sources:
* `models` (src/unnamed/part_000): `User`, `Address`, `CreateUserRequest`,
  `NewUser`, `GetFullName`, `UserResponse`, `ToResponse`.
* `handlers` (src/unnamed/part_000, `UserHandler.CreateUser`): the
  whitespace-trimming step applied to the request before the service call.
* `services/user_service.go`: the validation pass driven by the struct tags
  on `CreateUserRequest`, and `formatValidationError`.
* `repository/user_repository.go`: `InMemoryUserRepository` with
  `Create`, `GetByID`, `GetByEmail`, `GetAll`, `Update`, `Delete`.

The Go map `map[string]*models.User` is embedded as an association list with
the usual write-through (replace-or-append) update; the mutex makes each
repository method one atomic step, so each method is a pure function from
store state to (result, store state). Time stamps are `Nat`; identifier
generation and clock access are parameters (external collaborators).
-/

namespace UserApi

/-- Go struct `models.Address` (src/unnamed/part_000 lines 23-29). -/
structure Address where
  street : String
  city : String
  state : String
  postalCode : String
  country : String
  deriving DecidableEq, Repr

/-- Go struct `models.CreateUserRequest` (src/unnamed/part_000 lines 32-39).
`address` is a Go pointer, hence `Option`. -/
structure CreateUserRequest where
  firstName : String
  lastName : String
  email : String
  phone : String
  dateOfBirth : String
  address : Option Address
  deriving DecidableEq, Repr

/-- Go struct `models.User` (src/unnamed/part_000 lines 10-20). Timestamps as `Nat`. -/
structure User where
  id : String
  firstName : String
  lastName : String
  email : String
  phone : String
  dateOfBirth : String
  address : Option Address
  createdAt : Nat
  updatedAt : Nat
  deriving DecidableEq, Repr

/-- Go function `models.NewUser` (src/unnamed/part_000 lines 42-55): builds a `User` from a
request; the generated uuid and `time.Now()` are passed in as parameters. -/
def newUser (req : CreateUserRequest) (id : String) (now : Nat) : User :=
  { id := id
    firstName := req.firstName
    lastName := req.lastName
    email := req.email
    phone := req.phone
    dateOfBirth := req.dateOfBirth
    address := req.address
    createdAt := now
    updatedAt := now }

/-- Go method `User.GetFullName` (src/unnamed/part_000 lines 58-60). -/
def getFullName (u : User) : String :=
  u.firstName ++ " " ++ u.lastName

/-- Go struct `models.UserResponse` (src/unnamed/part_000 lines 63-74). -/
structure UserResponse where
  id : String
  firstName : String
  lastName : String
  fullName : String
  email : String
  phone : String
  dateOfBirth : String
  address : Option Address
  createdAt : Nat
  updatedAt : Nat
  deriving DecidableEq, Repr

/-- Go method `User.ToResponse` (src/unnamed/part_000 lines 77-90). -/
def toResponse (u : User) : UserResponse :=
  { id := u.id
    firstName := u.firstName
    lastName := u.lastName
    fullName := getFullName u
    email := u.email
    phone := u.phone
    dateOfBirth := u.dateOfBirth
    address := u.address
    createdAt := u.createdAt
    updatedAt := u.updatedAt }

/-- Modelled from the spec: Go's `strings.TrimSpace` is standard-library
code, not under src/. Per the spec, fields "are trimmed of leading/trailing
whitespace": drop whitespace characters from both ends. -/
def trimSpace (s : String) : String :=
  String.mk
    ((s.data.dropWhile Char.isWhitespace).reverse.dropWhile
      Char.isWhitespace).reverse

/-- The whitespace-trimming step of `UserHandler.CreateUser`
(src/unnamed/part_000 lines 145-150): exactly the five scalar string fields
are trimmed; the address sub-fields are left untouched. -/
def trimRequest (req : CreateUserRequest) : CreateUserRequest :=
  { req with
    firstName := trimSpace req.firstName
    lastName := trimSpace req.lastName
    email := trimSpace req.email
    phone := trimSpace req.phone
    dateOfBirth := trimSpace req.dateOfBirth }

/-! ## The in-memory repository (src/repository/user_repository.go)

The store is the Go map's entry list: key (the map key, always `user.ID` at
write sites) paired with the record. -/

/-- The state of `InMemoryUserRepository.users`. -/
abbrev Store := List (String × User)

/-- Go map read `r.users[id]`. -/
def lookupMap (id : String) (s : Store) : Option User :=
  (s.find? (fun p => p.1 == id)).map (·.2)

/-- Go map write `r.users[k] = v`: replace the binding for `k` if present,
otherwise add it. -/
def insertMap (k : String) (v : User) : Store → Store
  | [] => [(k, v)]
  | p :: t => if p.1 == k then (k, v) :: t else p :: insertMap k v t

/-- Go map removal `delete(r.users, id)`. -/
def eraseMap (k : String) : Store → Store
  | [] => []
  | p :: t => if p.1 == k then t else p :: eraseMap k t

/-- Error message of `InMemoryUserRepository.Create` (line 58). -/
def conflictMsg : String := "user with this email already exists"

/-- Error message of `GetByID` / `GetByEmail` / `Update` / `Delete`. -/
def notFoundMsg : String := "user not found"

/-- Go method `InMemoryUserRepository.Create` (lines 41-68): scan all stored records for
an equal email (case-sensitive `==`); on a hit return the conflict error with
the store untouched, otherwise write the record at key `user.ID`. -/
def createRun (s : Store) (u : User) : Except String Unit × Store :=
  if s.any (fun p => p.2.email == u.email) then
    (.error conflictMsg, s)
  else
    (.ok (), insertMap u.id u s)

/-- Go method `InMemoryUserRepository.GetByID` (lines 71-97). -/
def getByID (s : Store) (id : String) : Except String User :=
  match lookupMap id s with
  | some u => .ok u
  | none => .error notFoundMsg

/-- Go method `InMemoryUserRepository.GetByEmail` (lines 100-127): first record whose
email matches exactly. -/
def getByEmail (s : Store) (email : String) : Except String User :=
  match s.find? (fun p => p.2.email == email) with
  | some p => .ok p.2
  | none => .error notFoundMsg

/-- Go method `InMemoryUserRepository.GetAll` (lines 130-152): all stored records. -/
def getAll (s : Store) : List User :=
  s.map (·.2)

/-- Go method `InMemoryUserRepository.Update` (lines 155-179): not-found error if no
binding for `user.ID` exists, otherwise overwrite that binding with the given
record, whatever its fields are. -/
def updateRun (s : Store) (u : User) : Except String Unit × Store :=
  match lookupMap u.id s with
  | none => (.error notFoundMsg, s)
  | some _ => (.ok (), insertMap u.id u s)

/-- Go method `InMemoryUserRepository.Delete` (lines 182-205). -/
def deleteRun (s : Store) (id : String) : Except String Unit × Store :=
  match lookupMap id s with
  | none => (.error notFoundMsg, s)
  | some _ => (.ok (), eraseMap id s)

/-- The emails of the live records, in store order. -/
def emails (s : Store) : List String :=
  s.map (·.2.email)

/-- No two live records share an email. -/
def emailsNodup (s : Store) : Prop :=
  (emails s).Nodup

/-- A sequence of store operations restricted to `Create` and `Delete`. -/
inductive CDOp where
  | create (u : User)
  | delete (id : String)
  deriving Repr

/-- Run one `Create`/`Delete` call, keeping the state a failed call leaves. -/
def applyCD (s : Store) : CDOp → Store
  | .create u => (createRun s u).2
  | .delete id => (deleteRun s id).2

/-- Run a sequence of `Create`/`Delete` calls. -/
def execCD (s : Store) : List CDOp → Store
  | [] => s
  | op :: t => execCD (applyCD s op) t

/-- Run the creates of a batch in order, keeping each resulting state. -/
def createAll (s : Store) : List User → Store
  | [] => s
  | u :: t => createAll (createRun s u).2 t

/-- All creates of the batch succeed when run in order. -/
def createAllOk (s : Store) : List User → Bool
  | [] => true
  | u :: t => (createRun s u).1.isOk && createAllOk (createRun s u).2 t

/-! ## The validation engine (src/services/user_service.go)

`UserService.CreateUser` runs `validator.Struct(req)` over the tags declared
on `models.CreateUserRequest` and renders the failures with
`formatValidationError`. The validator walks the struct fields in declaration
order; per field it evaluates the tags left to right and records the first
failing one; `omitempty` skips the remaining tags on an empty string; `min`
and `max` on a string bound its character count; a nested struct behind a
non-nil pointer is validated field by field; a reported failure carries the
struct field name, the failing tag and the tag parameter. -/

/-- One entry of `validator.ValidationErrors`: the struct field name
(`FieldError.Field()`), the failing tag (`.Tag()`) and its parameter
(`.Param()`). -/
structure FieldError where
  field : String
  tag : String
  param : String
  deriving DecidableEq, Repr

/-- Split a character list at every occurrence of the separator `c`. -/
def splitOnChar (c : Char) : List Char → List (List Char)
  | [] => [[]]
  | x :: xs =>
    if x = c then [] :: splitOnChar c xs
    else
      match splitOnChar c xs with
      | [] => [[x]]
      | h :: t => (x :: h) :: t

/-- Modelled from the spec: the syntax check behind the `email` tag lives in
the third-party validator library, not under src/. The spec says email "must
match a valid email address syntax"; modelled as a single `@` separating a
nonempty local part from a domain that contains a dot and has no empty
label. -/
def isValidEmail (s : String) : Bool :=
  match splitOnChar '@' s.data with
  | [localPart, domain] =>
    !localPart.isEmpty && !domain.isEmpty && domain.elem '.' &&
      (splitOnChar '.' domain).all (fun lab => !lab.isEmpty)
  | _ => false

/-- Gregorian leap-year rule, as used by Go's `time` package. -/
def isLeapYear (y : Nat) : Bool :=
  y % 4 == 0 && (y % 100 != 0 || y % 400 == 0)

/-- Number of days of month `m` in year `y`. -/
def daysInMonth (y m : Nat) : Nat :=
  if m == 2 then (if isLeapYear y then 29 else 28)
  else if m == 4 || m == 6 || m == 9 || m == 11 then 30
  else 31

/-- Decimal value of a list of digit characters. -/
def digitsToNat (l : List Char) : Nat :=
  l.foldl (fun acc c => acc * 10 + (c.toNat - 48)) 0

/-- Modelled from the spec: the check behind `datetime=2006-01-02` lives in
the third-party validator library (via Go `time.Parse`), not under src/. The
spec says the value "must parse as an ISO calendar date (YYYY-MM-DD)": a
zero-padded 4-digit year, 2-digit month 01-12 and 2-digit day that exists in
that month and year. -/
def isValidDate (s : String) : Bool :=
  match splitOnChar '-' s.data with
  | [y, m, d] =>
    y.length == 4 && m.length == 2 && d.length == 2 &&
      y.all Char.isDigit && m.all Char.isDigit && d.all Char.isDigit &&
      decide (1 ≤ digitsToNat m ∧ digitsToNat m ≤ 12 ∧ 1 ≤ digitsToNat d ∧
        digitsToNat d ≤ daysInMonth (digitsToNat y) (digitsToNat m))
  | _ => false

/-- Tag list `required,min=2,max=50` on a string field. -/
def checkRequiredLen (name : String) (lo hi : Nat) (v : String) : List FieldError :=
  if v = "" then [⟨name, "required", ""⟩]
  else if v.length < lo then [⟨name, "min", toString lo⟩]
  else if hi < v.length then [⟨name, "max", toString hi⟩]
  else []

/-- Tag list `omitempty,min=10,max=15` on a string field. -/
def checkOptionalLen (name : String) (lo hi : Nat) (v : String) : List FieldError :=
  if v = "" then []
  else if v.length < lo then [⟨name, "min", toString lo⟩]
  else if hi < v.length then [⟨name, "max", toString hi⟩]
  else []

/-- Tag list `omitempty,max=N` on a string field. -/
def checkOptionalMax (name : String) (hi : Nat) (v : String) : List FieldError :=
  if v = "" then []
  else if hi < v.length then [⟨name, "max", toString hi⟩]
  else []

/-- Tag list `required,email` on the email field. -/
def checkEmailField (v : String) : List FieldError :=
  if v = "" then [⟨"Email", "required", ""⟩]
  else if ¬isValidEmail v then [⟨"Email", "email", ""⟩]
  else []

/-- Tag list `omitempty,datetime=2006-01-02` on the date-of-birth field. -/
def checkDateOfBirth (v : String) : List FieldError :=
  if v = "" then []
  else if ¬isValidDate v then [⟨"DateOfBirth", "datetime", "2006-01-02"⟩]
  else []

/-- The `models.Address` tags (src/unnamed/part_000 lines 24-28), validated
when the request carries a non-nil address pointer. -/
def checkAddress : Option Address → List FieldError
  | none => []
  | some a =>
    checkOptionalMax "Street" 100 a.street ++
    checkOptionalMax "City" 50 a.city ++
    checkOptionalMax "State" 50 a.state ++
    checkOptionalMax "PostalCode" 20 a.postalCode ++
    checkOptionalMax "Country" 50 a.country

/-- The call `s.validator.Struct(req)` over the `models.CreateUserRequest` tags
(src/unnamed/part_000 lines 32-39), in struct declaration order. An empty
list is a passing validation. -/
def validateStruct (r : CreateUserRequest) : List FieldError :=
  checkRequiredLen "FirstName" 2 50 r.firstName ++
  checkRequiredLen "LastName" 2 50 r.lastName ++
  checkEmailField r.email ++
  checkOptionalLen "Phone" 10 15 r.phone ++
  checkDateOfBirth r.dateOfBirth ++
  checkAddress r.address

/-- The per-error message of `UserService.formatValidationError`
(src/services/user_service.go lines 162-175): switch on the failing tag,
with `Field() + " is invalid"` as the default branch. -/
def errorMessage (fe : FieldError) : String :=
  if fe.tag = "required" then fe.field ++ " is required"
  else if fe.tag = "email" then fe.field ++ " must be a valid email address"
  else if fe.tag = "min" then
    fe.field ++ " must be at least " ++ fe.param ++ " characters long"
  else if fe.tag = "max" then
    fe.field ++ " must be at most " ++ fe.param ++ " characters long"
  else if fe.tag = "datetime" then
    fe.field ++ " must be in YYYY-MM-DD format"
  else fe.field ++ " is invalid"

/-- The joining loop of `formatValidationError` (lines 179-185): `"; "`
before every message but the first. -/
def joinMessages : List String → String
  | [] => ""
  | m :: t => t.foldl (fun acc msg => acc ++ "; " ++ msg) m

/-- Go method `UserService.formatValidationError` (lines 158-190) applied to the
validation failures. -/
def formatValidationError (errs : List FieldError) : String :=
  joinMessages (errs.map errorMessage)

/-! ## Concrete example values used by witnesses and counterexamples -/

/-- The keys of the store. -/
def keys (s : Store) : List String :=
  s.map (·.1)

/-- Sample valid record. -/
def johnUser : User :=
  ⟨"u1", "John", "Doe", "john@x.com", "", "", none, 0, 0⟩

/-- Sample valid record with a distinct id and email. -/
def janeUser : User :=
  ⟨"u2", "Jane", "Doe", "jane@x.com", "", "", none, 0, 0⟩

/-- Record stored before the sample update. -/
def oldRec : User :=
  ⟨"u1", "John", "Doe", "john@x.com", "", "", none, 0, 0⟩

/-- Replacement passed to the sample update: same id, creation timestamp 5
and modification timestamp 3. -/
def newRec : User :=
  ⟨"u1", "John", "Doe", "john@x.com", "", "", none, 5, 3⟩

/-- Record with key id "i" and email "a@x.com". -/
def recA : User :=
  ⟨"i", "Ann", "Ash", "a@x.com", "", "", none, 0, 0⟩

/-- Record with the same id "i" but email "b@x.com". -/
def recB : User :=
  ⟨"i", "Bob", "Birch", "b@x.com", "", "", none, 0, 0⟩

/-- Update payload for id "u2" whose email collides with the record stored
at "u1". -/
def collideRec : User :=
  ⟨"u2", "Jane", "Doe", "john@x.com", "", "", none, 7, 7⟩

/-- The request of the spec's validation example: empty first name, invalid
email. -/
def badReq : CreateUserRequest :=
  ⟨"", "Doe", "invalid-email", "", "", none⟩

/-- Address whose street has leading and trailing whitespace. -/
def wsAddr : Address :=
  ⟨" 1 Main St ", "", "", "", ""⟩

/-- The same address with the whitespace removed. -/
def plainAddr : Address :=
  ⟨"1 Main St", "", "", "", ""⟩

/-- Valid creation request carrying `wsAddr`. -/
def wsReq : CreateUserRequest :=
  ⟨"John", "Doe", "john@x.com", "", "", some wsAddr⟩

/-- The same request carrying `plainAddr`. -/
def plainReq : CreateUserRequest :=
  ⟨"John", "Doe", "john@x.com", "", "", some plainAddr⟩

/-- Valid creation request with whitespace around every scalar field. -/
def wsScalarReq : CreateUserRequest :=
  ⟨" John ", " Doe ", " john@x.com ", "", "", none⟩

/-- The same request with the whitespace removed. -/
def plainScalarReq : CreateUserRequest :=
  ⟨"John", "Doe", "john@x.com", "", "", none⟩

/-! ## Store lemmas -/

theorem lookupMap_insertMap_self (k : String) (v : User) (s : Store) :
    lookupMap k (insertMap k v s) = some v := by
  induction s with
  | nil => simp [insertMap, lookupMap]
  | cons p t ih =>
    by_cases h : p.1 = k
    · simp [insertMap, h, lookupMap]
    · simp only [insertMap, beq_iff_eq, h, if_false]
      simpa [lookupMap, List.find?_cons, beq_iff_eq, h] using ih

theorem lookupMap_insertMap_ne (k k' : String) (v : User) (s : Store)
    (h : k' ≠ k) : lookupMap k' (insertMap k v s) = lookupMap k' s := by
  induction s with
  | nil =>
    have hf : (k == k') = false := beq_eq_false_iff_ne.mpr (Ne.symm h)
    simp [insertMap, lookupMap, List.find?, hf]
  | cons p t ih =>
    by_cases hp : p.1 = k
    · simp [insertMap, hp, lookupMap, List.find?_cons, beq_iff_eq, Ne.symm h]
    · simp only [insertMap, beq_iff_eq, hp, if_false]
      by_cases hq : p.1 = k'
      · simp [lookupMap, List.find?_cons, beq_iff_eq, hq]
      · simpa [lookupMap, List.find?_cons, beq_iff_eq, hq] using ih

theorem insertMap_eq_append (k : String) (v : User) (s : Store)
    (h : k ∉ keys s) : insertMap k v s = s ++ [(k, v)] := by
  induction s with
  | nil => simp [insertMap]
  | cons p t ih =>
    simp only [keys, List.map_cons, List.mem_cons, not_or] at h
    have hp : ¬ p.1 = k := fun hc => h.1 hc.symm
    have ih' := ih (by simpa [keys] using h.2)
    simp [insertMap, hp, ih']

theorem insertMap_length_of_mem (k : String) (v : User) (s : Store)
    (h : k ∈ keys s) : (insertMap k v s).length = s.length := by
  induction s with
  | nil => simp [keys] at h
  | cons p t ih =>
    by_cases hp : p.1 = k
    · simp [insertMap, hp]
    · simp only [keys, List.map_cons, List.mem_cons] at h
      rcases h with h | h
      · exact absurd h.symm hp
      · simp only [insertMap, beq_iff_eq, hp, if_false, List.length_cons]
        rw [ih (by simpa [keys] using h)]

theorem mem_emails_insertMap (k : String) (v : User) (s : Store) (x : String)
    (h : x ∈ emails (insertMap k v s)) : x = v.email ∨ x ∈ emails s := by
  induction s with
  | nil => simpa [insertMap, emails] using h
  | cons p t ih =>
    by_cases hp : p.1 = k
    · simp only [insertMap, beq_iff_eq, hp, if_true, emails, List.map_cons,
        List.mem_cons] at h ⊢
      tauto
    · simp only [insertMap, beq_iff_eq, hp, if_false, emails, List.map_cons,
        List.mem_cons] at h ⊢
      rcases h with h | h
      · tauto
      · rcases ih h with h' | h' <;> tauto

theorem emailsNodup_insertMap (k : String) (v : User) (s : Store)
    (hnd : emailsNodup s) (hfresh : v.email ∉ emails s) :
    emailsNodup (insertMap k v s) := by
  induction s with
  | nil => simp [insertMap, emailsNodup, emails]
  | cons p t ih =>
    simp only [emailsNodup, emails, List.map_cons, List.nodup_cons] at hnd
    simp only [emails, List.map_cons, List.mem_cons, not_or] at hfresh
    by_cases hp : p.1 = k
    · simp only [insertMap, beq_iff_eq, hp, if_true, emailsNodup, emails,
        List.map_cons, List.nodup_cons]
      exact ⟨hfresh.2, hnd.2⟩
    · simp only [insertMap, beq_iff_eq, hp, if_false, emailsNodup, emails,
        List.map_cons, List.nodup_cons]
      refine ⟨fun hc => ?_, ih hnd.2 hfresh.2⟩
      rcases mem_emails_insertMap k v t p.2.email hc with h' | h'
      · exact hfresh.1 h'.symm
      · exact hnd.1 h'

theorem emails_eraseMap_sublist (k : String) (s : Store) :
    (emails (eraseMap k s)).Sublist (emails s) := by
  induction s with
  | nil => simp [eraseMap, emails]
  | cons p t ih =>
    by_cases hp : p.1 = k
    · simp only [eraseMap, beq_iff_eq, hp, if_true, emails, List.map_cons]
      exact (List.sublist_cons_self _ _)
    · simp only [eraseMap, beq_iff_eq, hp, if_false, emails, List.map_cons]
      exact ih.cons₂ _

theorem any_email_iff (s : Store) (e : String) :
    s.any (fun p => p.2.email == e) = true ↔ e ∈ emails s := by
  simp only [List.any_eq_true, beq_iff_eq, emails, List.mem_map]

theorem emailsNodup_applyCD (s : Store) (op : CDOp)
    (h : emailsNodup s) : emailsNodup (applyCD s op) := by
  cases op with
  | create u =>
    simp only [applyCD, createRun]
    by_cases hc : s.any (fun p => p.2.email == u.email) = true
    · simp only [if_pos hc]
      exact h
    · simp only [if_neg hc]
      exact emailsNodup_insertMap u.id u s h
        (fun hm => hc ((any_email_iff s u.email).2 hm))
  | delete id =>
    simp only [applyCD, deleteRun]
    cases hl : lookupMap id s with
    | none =>
      simp only [hl]
      exact h
    | some v =>
      simp only [hl]
      exact (emails_eraseMap_sublist id s).nodup h

theorem emailsNodup_execCD (s : Store) (ops : List CDOp)
    (h : emailsNodup s) : emailsNodup (execCD s ops) := by
  induction ops generalizing s with
  | nil => simpa [execCD] using h
  | cons op t ih => exact ih _ (emailsNodup_applyCD s op h)

theorem getByEmail_insertMap_self (s : Store) (u : User)
    (hfresh : u.email ∉ emails s) :
    getByEmail (insertMap u.id u s) u.email = .ok u := by
  induction s with
  | nil => simp [insertMap, getByEmail, List.find?]
  | cons p t ih =>
    simp only [emails, List.map_cons, List.mem_cons, not_or] at hfresh
    by_cases hp : p.1 = u.id
    · simp [insertMap, hp, getByEmail, List.find?_cons]
    · simp only [insertMap, beq_iff_eq, hp, if_false]
      have hne : (p.2.email == u.email) = false := by
        simp [Ne.symm hfresh.1]
      simpa [getByEmail, List.find?_cons, hne] using ih hfresh.2

theorem mem_getAll_insertMap_self (s : Store) (k : String) (v : User) :
    v ∈ getAll (insertMap k v s) := by
  induction s with
  | nil => simp [insertMap, getAll]
  | cons p t ih =>
    by_cases hp : p.1 = k
    · simp [insertMap, hp, getAll]
    · simp only [insertMap, beq_iff_eq, hp, if_false, getAll, List.map_cons,
        List.mem_cons]
      right
      simpa [getAll] using ih

theorem mem_insertMap_of_keysNodup (s : Store) (k : String) (v : User)
    (q : String × User) (hkeys : (keys s).Nodup)
    (hq : q ∈ insertMap k v s) : q = (k, v) ∨ (q ∈ s ∧ q.1 ≠ k) := by
  induction s with
  | nil => simp only [insertMap, List.mem_singleton] at hq; exact Or.inl hq
  | cons p t ih =>
    simp only [keys, List.map_cons, List.nodup_cons] at hkeys
    by_cases hp : p.1 = k
    · simp only [insertMap, beq_iff_eq, hp, if_true, List.mem_cons] at hq
      rcases hq with hq | hq
      · exact Or.inl hq
      · refine Or.inr ⟨List.mem_cons_of_mem _ hq, fun hc => ?_⟩
        exact hkeys.1 (by rw [hp, ← hc]; exact List.mem_map_of_mem _ hq)
    · simp only [insertMap, beq_iff_eq, hp, if_false, List.mem_cons] at hq
      rcases hq with hq | hq
      · exact Or.inr ⟨by simp [hq], by simp [hq, hp]⟩
      · rcases ih (by simpa [keys] using hkeys.2) hq with h' | h'
        · exact Or.inl h'
        · exact Or.inr ⟨List.mem_cons_of_mem _ h'.1, h'.2⟩

/-! ## Validation lemmas -/

theorem checkRequiredLen_eq_nil_iff (n : String) (lo hi : Nat) (v : String) :
    checkRequiredLen n lo hi v = [] ↔
      v ≠ "" ∧ lo ≤ v.length ∧ v.length ≤ hi := by
  unfold checkRequiredLen
  split_ifs with h1 h2 h3 <;> simp_all

theorem checkOptionalLen_eq_nil_iff (n : String) (lo hi : Nat) (v : String) :
    checkOptionalLen n lo hi v = [] ↔
      v = "" ∨ (lo ≤ v.length ∧ v.length ≤ hi) := by
  unfold checkOptionalLen
  split_ifs with h1 h2 h3 <;> simp_all

theorem checkOptionalMax_eq_nil_iff (n : String) (hi : Nat) (v : String) :
    checkOptionalMax n hi v = [] ↔ v = "" ∨ v.length ≤ hi := by
  unfold checkOptionalMax
  split_ifs with h1 h2 <;> simp_all

theorem checkEmailField_eq_nil_iff (v : String) :
    checkEmailField v = [] ↔ v ≠ "" ∧ isValidEmail v = true := by
  unfold checkEmailField
  split_ifs with h1 h2 <;> simp_all

theorem checkDateOfBirth_eq_nil_iff (v : String) :
    checkDateOfBirth v = [] ↔ v = "" ∨ isValidDate v = true := by
  unfold checkDateOfBirth
  split_ifs with h1 h2 <;> simp_all

theorem checkAddress_eq_nil_iff (oa : Option Address) :
    checkAddress oa = [] ↔
      ∀ a, oa = some a →
        (a.street = "" ∨ a.street.length ≤ 100) ∧
        (a.city = "" ∨ a.city.length ≤ 50) ∧
        (a.state = "" ∨ a.state.length ≤ 50) ∧
        (a.postalCode = "" ∨ a.postalCode.length ≤ 20) ∧
        (a.country = "" ∨ a.country.length ≤ 50) := by
  cases oa with
  | none => simp [checkAddress]
  | some a =>
    simp only [checkAddress, List.append_eq_nil, Option.some.injEq,
      forall_eq', checkOptionalMax_eq_nil_iff]
    tauto

theorem checkRequiredLen_fields (n : String) (lo hi : Nat) (v : String) :
    ((checkRequiredLen n lo hi v).map (·.field)).Sublist [n] := by
  unfold checkRequiredLen
  split_ifs <;> simp

theorem checkOptionalLen_fields (n : String) (lo hi : Nat) (v : String) :
    ((checkOptionalLen n lo hi v).map (·.field)).Sublist [n] := by
  unfold checkOptionalLen
  split_ifs <;> simp

theorem checkOptionalMax_fields (n : String) (hi : Nat) (v : String) :
    ((checkOptionalMax n hi v).map (·.field)).Sublist [n] := by
  unfold checkOptionalMax
  split_ifs <;> simp

theorem checkEmailField_fields (v : String) :
    ((checkEmailField v).map (·.field)).Sublist ["Email"] := by
  unfold checkEmailField
  split_ifs <;> simp

theorem checkDateOfBirth_fields (v : String) :
    ((checkDateOfBirth v).map (·.field)).Sublist ["DateOfBirth"] := by
  unfold checkDateOfBirth
  split_ifs <;> simp

theorem checkAddress_fields (oa : Option Address) :
    ((checkAddress oa).map (·.field)).Sublist
      ["Street", "City", "State", "PostalCode", "Country"] := by
  cases oa with
  | none => simp [checkAddress]
  | some a =>
    simp only [checkAddress, List.map_append]
    have h1 := checkOptionalMax_fields "Street" 100 a.street
    have h2 := checkOptionalMax_fields "City" 50 a.city
    have h3 := checkOptionalMax_fields "State" 50 a.state
    have h4 := checkOptionalMax_fields "PostalCode" 20 a.postalCode
    have h5 := checkOptionalMax_fields "Country" 50 a.country
    exact (((h1.append h2).append h3).append h4).append h5

theorem validateStruct_fields (r : CreateUserRequest) :
    ((validateStruct r).map (·.field)).Sublist
      ["FirstName", "LastName", "Email", "Phone", "DateOfBirth",
       "Street", "City", "State", "PostalCode", "Country"] := by
  simp only [validateStruct, List.map_append]
  have h1 := checkRequiredLen_fields "FirstName" 2 50 r.firstName
  have h2 := checkRequiredLen_fields "LastName" 2 50 r.lastName
  have h3 := checkEmailField_fields r.email
  have h4 := checkOptionalLen_fields "Phone" 10 15 r.phone
  have h5 := checkDateOfBirth_fields r.dateOfBirth
  have h6 := checkAddress_fields r.address
  exact ((((h1.append h2).append h3).append h4).append h5).append h6

theorem mem_checkRequiredLen_tag (n : String) (lo hi : Nat) (v : String)
    (fe : FieldError) (h : fe ∈ checkRequiredLen n lo hi v) :
    fe.tag = "required" ∨ fe.tag = "min" ∨ fe.tag = "max" := by
  unfold checkRequiredLen at h
  split_ifs at h <;> simp_all

theorem mem_checkOptionalLen_tag (n : String) (lo hi : Nat) (v : String)
    (fe : FieldError) (h : fe ∈ checkOptionalLen n lo hi v) :
    fe.tag = "min" ∨ fe.tag = "max" := by
  unfold checkOptionalLen at h
  split_ifs at h <;> simp_all

theorem mem_checkOptionalMax_tag (n : String) (hi : Nat) (v : String)
    (fe : FieldError) (h : fe ∈ checkOptionalMax n hi v) :
    fe.tag = "max" := by
  unfold checkOptionalMax at h
  split_ifs at h <;> simp_all

theorem mem_checkEmailField_tag (v : String) (fe : FieldError)
    (h : fe ∈ checkEmailField v) :
    fe.tag = "required" ∨ fe.tag = "email" := by
  unfold checkEmailField at h
  split_ifs at h <;> simp_all

theorem mem_checkDateOfBirth_tag (v : String) (fe : FieldError)
    (h : fe ∈ checkDateOfBirth v) : fe.tag = "datetime" := by
  unfold checkDateOfBirth at h
  split_ifs at h <;> simp_all

theorem mem_checkAddress_tag (oa : Option Address) (fe : FieldError)
    (h : fe ∈ checkAddress oa) : fe.tag = "max" := by
  cases oa with
  | none => simp [checkAddress] at h
  | some a =>
    simp only [checkAddress, List.mem_append] at h
    rcases h with ((((h | h) | h) | h) | h) <;>
      exact mem_checkOptionalMax_tag _ _ _ _ h

theorem mem_validateStruct_tag (r : CreateUserRequest) (fe : FieldError)
    (h : fe ∈ validateStruct r) :
    fe.tag = "required" ∨ fe.tag = "email" ∨ fe.tag = "min" ∨
      fe.tag = "max" ∨ fe.tag = "datetime" := by
  simp only [validateStruct, List.mem_append] at h
  rcases h with ((((h | h) | h) | h) | h) | h
  · rcases mem_checkRequiredLen_tag _ _ _ _ _ h with h' | h' | h' <;> tauto
  · rcases mem_checkRequiredLen_tag _ _ _ _ _ h with h' | h' | h' <;> tauto
  · rcases mem_checkEmailField_tag _ _ h with h' | h' <;> tauto
  · rcases mem_checkOptionalLen_tag _ _ _ _ _ h with h' | h' <;> tauto
  · have := mem_checkDateOfBirth_tag _ _ h; tauto
  · have := mem_checkAddress_tag _ _ h; tauto

/-! ## Batch-create lemma -/

theorem createAll_fresh (us : List User) : ∀ s : Store,
    (us.map (·.email)).Nodup → (us.map (·.id)).Nodup →
    (∀ u ∈ us, u.email ∉ emails s) → (∀ u ∈ us, u.id ∉ keys s) →
    createAllOk s us = true ∧
    createAll s us = s ++ us.map (fun u => (u.id, u)) := by
  induction us with
  | nil => intro s _ _ _ _; simp [createAllOk, createAll]
  | cons u t ih =>
    intro s hem hid hfe hfk
    simp only [List.map_cons, List.nodup_cons] at hem hid
    have hany : ¬ s.any (fun p => p.2.email == u.email) = true :=
      fun hc => (hfe u (List.mem_cons_self u t)) ((any_email_iff s u.email).1 hc)
    have hstate : createRun s u = (.ok (), s ++ [(u.id, u)]) := by
      rw [createRun, if_neg hany,
        insertMap_eq_append u.id u s (hfk u (List.mem_cons_self u t))]
    have hfe' : ∀ v ∈ t, v.email ∉ emails (s ++ [(u.id, u)]) := by
      intro v hv
      simp only [emails, List.map_append, List.mem_append, List.map_cons,
        List.map_nil, List.mem_singleton, not_or]
      refine ⟨hfe v (List.mem_cons_of_mem u hv), fun hc => ?_⟩
      exact hem.1 (hc ▸ List.mem_map_of_mem _ hv)
    have hfk' : ∀ v ∈ t, v.id ∉ keys (s ++ [(u.id, u)]) := by
      intro v hv
      simp only [keys, List.map_append, List.mem_append, List.map_cons,
        List.map_nil, List.mem_singleton, not_or]
      refine ⟨hfk v (List.mem_cons_of_mem u hv), fun hc => ?_⟩
      exact hid.1 (hc ▸ List.mem_map_of_mem _ hv)
    obtain ⟨hok, heq⟩ := ih (s ++ [(u.id, u)]) hem.2 hid.2 hfe' hfk'
    constructor
    · simp only [createAllOk, hstate]
      simpa [Except.isOk, Except.toBool] using hok
    · simp only [createAll, hstate]
      rw [heq]
      simp [List.append_assoc]

/-! ## Claim theorems -/

/-- C1: for every store state in which no two live records share an email,
`Create` returns the conflict error iff some stored record's email equals the
new record's email by case-sensitive exact match; on conflict the store is
unchanged; on success the record is stored and visible to `GetByID`,
`GetByEmail` and `GetAll`; and every sequence of `Create` and `Delete` calls
preserves the no-duplicate-email invariant. -/
theorem create_conflict_iff_email_exists (s : Store) (u : User)
    (hinv : emailsNodup s) :
    ((createRun s u).1 = .error conflictMsg ↔ ∃ p ∈ s, p.2.email = u.email) ∧
    ((createRun s u).1 = .error conflictMsg → (createRun s u).2 = s) ∧
    ((createRun s u).1 = .ok () →
      getByID (createRun s u).2 u.id = .ok u ∧
      getByEmail (createRun s u).2 u.email = .ok u ∧
      u ∈ getAll (createRun s u).2) ∧
    (∀ ops : List CDOp, emailsNodup (execCD s ops)) := by
  refine ⟨?_, ?_, ?_, fun ops => emailsNodup_execCD s ops hinv⟩
  · by_cases hc : s.any (fun p => p.2.email == u.email) = true
    · have hm := (any_email_iff s u.email).1 hc
      simp only [emails, List.mem_map] at hm
      obtain ⟨p, hp, he⟩ := hm
      rw [createRun, if_pos hc]
      exact ⟨fun _ => ⟨p, hp, he⟩, fun _ => rfl⟩
    · rw [createRun, if_neg hc]
      refine ⟨fun h => absurd h (by simp), fun ⟨p, hp, he⟩ => ?_⟩
      have hmem : u.email ∈ emails s := by
        simp only [emails, List.mem_map]
        exact ⟨p, hp, he⟩
      exact absurd ((any_email_iff s u.email).2 hmem) hc
  · by_cases hc : s.any (fun p => p.2.email == u.email) = true
    · rw [createRun, if_pos hc]; exact fun _ => rfl
    · rw [createRun, if_neg hc]; exact fun h => absurd h (by simp)
  · intro hok
    by_cases hc : s.any (fun p => p.2.email == u.email) = true
    · rw [createRun, if_pos hc] at hok
      exact absurd hok (by simp)
    · have hfresh : u.email ∉ emails s :=
        fun hm => hc ((any_email_iff s u.email).2 hm)
      have hstate : (createRun s u).2 = insertMap u.id u s := by
        rw [createRun, if_neg hc]
      rw [hstate]
      exact ⟨by rw [getByID, lookupMap_insertMap_self],
        getByEmail_insertMap_self s u hfresh,
        mem_getAll_insertMap_self s u.id u⟩

/-- Witness for C1 at the empty store and `johnUser`. -/
theorem create_conflict_iff_email_exists_witness :
    emailsNodup ([] : Store) ∧
    getByID (createRun [] johnUser).2 johnUser.id = .ok johnUser :=
  ⟨List.nodup_nil,
    ((create_conflict_iff_email_exists [] johnUser List.nodup_nil).2.2.1 rfl).1⟩

/-- C2: every store operation either succeeds with its postcondition or
returns exactly its named error string, and an erroring write leaves the
store exactly as it was; the reads never change the store (they are pure
functions of it) and `GetAll` exposes one record per stored binding. -/
theorem store_ops_total_atomic (s : Store) (u : User) (id email : String) :
    ((createRun s u).1 = .ok () ∨
      ((createRun s u).1 = .error conflictMsg ∧ (createRun s u).2 = s)) ∧
    ((∃ v, getByID s id = .ok v) ∨ getByID s id = .error notFoundMsg) ∧
    ((∃ v, getByEmail s email = .ok v) ∨
      getByEmail s email = .error notFoundMsg) ∧
    (getAll s).length = s.length ∧
    ((updateRun s u).1 = .ok () ∨
      ((updateRun s u).1 = .error notFoundMsg ∧ (updateRun s u).2 = s)) ∧
    ((deleteRun s id).1 = .ok () ∨
      ((deleteRun s id).1 = .error notFoundMsg ∧ (deleteRun s id).2 = s)) := by
  refine ⟨?_, ?_, ?_, by simp [getAll], ?_, ?_⟩
  · by_cases hc : s.any (fun p => p.2.email == u.email) = true
    · rw [createRun, if_pos hc]; exact Or.inr ⟨rfl, rfl⟩
    · rw [createRun, if_neg hc]; exact Or.inl rfl
  · cases h : lookupMap id s with
    | none => rw [getByID, h]; exact Or.inr rfl
    | some v => rw [getByID, h]; exact Or.inl ⟨v, rfl⟩
  · cases h : s.find? (fun p => p.2.email == email) with
    | none => rw [getByEmail, h]; exact Or.inr rfl
    | some p => rw [getByEmail, h]; exact Or.inl ⟨p.2, rfl⟩
  · cases h : lookupMap u.id s with
    | none => rw [updateRun, h]; exact Or.inr ⟨rfl, rfl⟩
    | some v => rw [updateRun, h]; exact Or.inl rfl
  · cases h : lookupMap id s with
    | none => rw [deleteRun, h]; exact Or.inr ⟨rfl, rfl⟩
    | some v => rw [deleteRun, h]; exact Or.inl rfl

/-- C6: `Update` fails with the not-found error and leaves the store
unchanged iff nothing is stored under `u.id`; when a record is stored there
it succeeds, replaces exactly that binding and leaves every other binding
alone; and it makes no email-uniqueness check - it succeeds even when
another stored record carries the very same email. -/
theorem update_replaces_without_email_check (s : Store) (u : User) :
    ((updateRun s u).1 = .error notFoundMsg ↔ lookupMap u.id s = none) ∧
    ((updateRun s u).1 = .error notFoundMsg → (updateRun s u).2 = s) ∧
    (∀ v, lookupMap u.id s = some v →
      (updateRun s u).1 = .ok () ∧
      lookupMap u.id (updateRun s u).2 = some u ∧
      ∀ k, k ≠ u.id → lookupMap k (updateRun s u).2 = lookupMap k s) ∧
    (∀ v p, lookupMap u.id s = some v → p ∈ s → p.2.email = u.email →
      (updateRun s u).1 = .ok ()) := by
  cases h : lookupMap u.id s with
  | none =>
    refine ⟨?_, ?_, ?_, ?_⟩
    · rw [updateRun, h]; exact ⟨fun _ => rfl, fun _ => rfl⟩
    · rw [updateRun, h]; exact fun _ => rfl
    · intro v hv; exact absurd hv (by simp)
    · intro v p hv _ _; exact absurd hv (by simp)
  | some w =>
    have h1 : (updateRun s u).1 = .ok () := by rw [updateRun, h]
    have h2 : (updateRun s u).2 = insertMap u.id u s := by rw [updateRun, h]
    refine ⟨?_, ?_, ?_, fun _ _ _ _ _ => h1⟩
    · rw [h1]
      simp
    · rw [h1]; exact fun hc => absurd hc (by simp)
    · intro v _
      rw [h1, h2]
      exact ⟨rfl, lookupMap_insertMap_self u.id u s,
        fun k hk => lookupMap_insertMap_ne u.id k u s hk⟩

/-- Witness for C6: updating "u2" to an email already held by the record at
"u1" succeeds and replaces the binding at "u2". -/
theorem update_replaces_without_email_check_witness :
    (updateRun [("u1", johnUser), ("u2", janeUser)] collideRec).1 = .ok () ∧
    lookupMap collideRec.id
      (updateRun [("u1", johnUser), ("u2", janeUser)] collideRec).2 =
      some collideRec :=
  ⟨((update_replaces_without_email_check
      [("u1", johnUser), ("u2", janeUser)] collideRec).2.2.1 janeUser rfl).1,
    ((update_replaces_without_email_check
      [("u1", johnUser), ("u2", janeUser)] collideRec).2.2.1 janeUser rfl).2.1⟩

/-- Counterexample to C7: a successful `Update` with a payload whose
creation timestamp is 5 and modification timestamp is 3 stores that payload
verbatim - the stored creation timestamp is no longer the original one and
exceeds the stored modification timestamp. -/
theorem update_timestamps_cex :
    (updateRun [("u1", oldRec)] newRec).1 = .ok () ∧
    lookupMap "u1" (updateRun [("u1", oldRec)] newRec).2 = some newRec ∧
    newRec.createdAt ≠ oldRec.createdAt ∧
    ¬ newRec.createdAt ≤ newRec.updatedAt :=
  ⟨rfl, rfl, by decide, by decide⟩

/-- C7 (amended): a record built by `NewUser` starts with creation timestamp
equal to modification timestamp (so created ≤ updated at creation time), and
a successful storage-layer `Update` replaces the stored record wholesale with
the caller-supplied record - it preserves the binding key but stores the
caller's creation and modification timestamps as given, enforcing no
timestamp relation. -/
theorem newUser_timestamps_update_verbatim (s : Store) (u : User)
    (req : CreateUserRequest) (id : String) (now : Nat)
    (h : lookupMap u.id s ≠ none) :
    (newUser req id now).createdAt = now ∧
    (newUser req id now).updatedAt = now ∧
    (newUser req id now).createdAt ≤ (newUser req id now).updatedAt ∧
    lookupMap u.id (updateRun s u).2 = some u := by
  refine ⟨rfl, rfl, le_refl _, ?_⟩
  cases hl : lookupMap u.id s with
  | none => exact absurd hl h
  | some w =>
    have h2 : (updateRun s u).2 = insertMap u.id u s := by rw [updateRun, hl]
    rw [h2]
    exact lookupMap_insertMap_self u.id u s

/-- Witness for the amended C7 at a one-record store. -/
theorem newUser_timestamps_update_verbatim_witness :
    lookupMap newRec.id [("u1", oldRec)] ≠ none ∧
    lookupMap newRec.id (updateRun [("u1", oldRec)] newRec).2 = some newRec :=
  ⟨by simp [lookupMap, oldRec, newRec],
    (newUser_timestamps_update_verbatim [("u1", oldRec)] newRec badReq "x" 4
      (by simp [lookupMap, oldRec, newRec])).2.2.2⟩

/-- C8: after a successful `Create`, `GetByID` on the new record's id returns
the record equal in every stored field, and the response's full name is not
stored input but derived as first name ++ " " ++ last name. -/
theorem create_roundtrip_fullname (s : Store) (u : User)
    (h : (createRun s u).1 = .ok ()) :
    getByID (createRun s u).2 u.id = .ok u ∧
    (toResponse u).fullName = getFullName u ∧
    getFullName u = u.firstName ++ " " ++ u.lastName := by
  refine ⟨?_, rfl, rfl⟩
  by_cases hc : s.any (fun p => p.2.email == u.email) = true
  · rw [createRun, if_pos hc] at h
    exact absurd h (by simp)
  · have hstate : (createRun s u).2 = insertMap u.id u s := by
      rw [createRun, if_neg hc]
    rw [hstate, getByID, lookupMap_insertMap_self]

/-- Witness for C8 at the empty store and `johnUser`. -/
theorem create_roundtrip_fullname_witness :
    (createRun [] johnUser).1 = .ok () ∧
    getByID (createRun [] johnUser).2 johnUser.id = .ok johnUser :=
  ⟨rfl, (create_roundtrip_fullname [] johnUser rfl).1⟩

/-- Counterexample to C9: from the empty store, two successful creates with
distinct emails but one shared identifier leave a single record, not two. -/
theorem getAll_after_creates_cex :
    recA.email ≠ recB.email ∧
    createAllOk [] [recA, recB] = true ∧
    (getAll (createAll [] [recA, recB])).length ≠ 2 := by
  refine ⟨by decide, ?_, by decide⟩
  decide

/-- C9 (amended): from the empty store, N `Create` calls with pairwise
distinct emails and pairwise distinct identifiers all succeed, and `GetAll`
then returns exactly N records in which every created record appears exactly
once. (As stated the claim is false: `Create` keys records by identifier and
overwrites on identifier collision, so distinct emails alone do not give N
records.) -/
theorem getAll_after_creates (us : List User)
    (hem : (us.map (·.email)).Nodup) (hid : (us.map (·.id)).Nodup) :
    createAllOk [] us = true ∧
    (getAll (createAll [] us)).length = us.length ∧
    ∀ u ∈ us, (getAll (createAll [] us)).count u = 1 := by
  obtain ⟨hok, heq⟩ :=
    createAll_fresh us [] hem hid (by simp [emails]) (by simp [keys])
  have hall : getAll (createAll [] us) = us := by
    rw [heq]
    simp only [List.nil_append, getAll, List.map_map]
    exact List.map_id us
  refine ⟨hok, by rw [hall], fun u hu => ?_⟩
  rw [hall]
  exact List.count_eq_one_of_mem (List.Nodup.of_map _ hem) hu

/-- Witness for the amended C9 with two distinct records. -/
theorem getAll_after_creates_witness :
    ([johnUser, janeUser].map (·.email)).Nodup ∧
    ([johnUser, janeUser].map (·.id)).Nodup ∧
    (getAll (createAll [] [johnUser, janeUser])).length = 2 :=
  ⟨by decide, by decide,
    (getAll_after_creates [johnUser, janeUser] (by decide) (by decide)).2.1⟩

/-- C10: `Create` never checks identifier uniqueness: when a record is
already stored under `r.id` and no stored record holds `r.email`, the create
succeeds and silently overwrites, after which `GetByID r.id` returns the new
record, the old record is gone from `GetAll`, and the record count is
unchanged. -/
theorem create_overwrites_same_id (s : Store) (r old : User)
    (hwf : ∀ p ∈ s, p.1 = p.2.id) (hkeys : (keys s).Nodup)
    (hold : lookupMap r.id s = some old)
    (hfresh : ∀ p ∈ s, p.2.email ≠ r.email) :
    (createRun s r).1 = .ok () ∧
    getByID (createRun s r).2 r.id = .ok r ∧
    (getAll (createRun s r).2).length = (getAll s).length ∧
    old ∉ getAll (createRun s r).2 := by
  have hany : ¬ s.any (fun p => p.2.email == r.email) = true := by
    intro hc
    have hm := (any_email_iff s r.email).1 hc
    simp only [emails, List.mem_map] at hm
    obtain ⟨p, hp, he⟩ := hm
    exact hfresh p hp he
  have hstate : (createRun s r).2 = insertMap r.id r s := by
    rw [createRun, if_neg hany]
  unfold lookupMap at hold
  cases hf : s.find? (fun p => p.1 == r.id) with
  | none => rw [hf] at hold; exact absurd hold (by simp)
  | some q =>
    rw [hf] at hold
    simp only [Option.map_some', Option.some.injEq] at hold
    have hqmem := List.mem_of_find?_eq_some hf
    have hq1 : q.1 = r.id := by simpa using List.find?_some hf
    have hmemk : r.id ∈ keys s := hq1 ▸ List.mem_map_of_mem _ hqmem
    refine ⟨by rw [createRun, if_neg hany], ?_, ?_, ?_⟩
    · rw [hstate, getByID, lookupMap_insertMap_self]
    · rw [hstate]
      simp only [getAll, List.length_map]
      exact insertMap_length_of_mem r.id r s hmemk
    · intro hmem
      rw [hstate] at hmem
      simp only [getAll, List.mem_map] at hmem
      obtain ⟨q', hq', he'⟩ := hmem
      rcases mem_insertMap_of_keysNodup s r.id r q' hkeys hq' with h' | h'
      · have hor : old = r := by rw [← he', h']
        have hne := hfresh q hqmem
        rw [hold] at hne
        exact hne (by rw [hor])
      · have ha : q'.1 = old.id := by rw [hwf q' h'.1, he']
        have hb : old.id = r.id := by
          rw [← hold, ← hwf q hqmem, hq1]
        exact h'.2 (ha.trans hb)

/-- Witness for C10: creating `recB` over the store holding `recA` at the
same id "i". -/
theorem create_overwrites_same_id_witness :
    (createRun [("i", recA)] recB).1 = .ok () ∧
    getByID (createRun [("i", recA)] recB).2 "i" = .ok recB ∧
    recA ∉ getAll (createRun [("i", recA)] recB).2 :=
  ⟨(create_overwrites_same_id [("i", recA)] recB recA
      (by decide) (by decide) rfl (by decide)).1,
    (create_overwrites_same_id [("i", recA)] recB recA
      (by decide) (by decide) rfl (by decide)).2.1,
    (create_overwrites_same_id [("i", recA)] recB recA
      (by decide) (by decide) rfl (by decide)).2.2.2⟩

/-- Counterexample to C3: on the spec's own example request the rendered
messages use the Go struct field name "FirstName", so the output contains
"FirstName is required" and never "First name is required". -/
theorem validation_field_names_cex :
    "First name is required" ∉ (validateStruct badReq).map errorMessage ∧
    formatValidationError (validateStruct badReq) =
      "FirstName is required; Email must be a valid email address" := by
  constructor
  · decide
  · rfl

/-- C3 (amended): every violated field contributes at most one message of
the form "<Field> <reason>" with <Field> the Go struct field name
("FirstName", "LastName", "Email", "Phone", "DateOfBirth", "Street", "City",
"State", "PostalCode", "Country"), in struct declaration order, the reasons
drawn from the fixed set, joined with "; "; the example request yields
"FirstName is required; Email must be a valid email address". (As stated the
claim is false only in the field spelling: the code renders "FirstName", not
"First name".) -/
theorem validation_messages_shape (r : CreateUserRequest) :
    ((validateStruct r).map (·.field)).Sublist
      ["FirstName", "LastName", "Email", "Phone", "DateOfBirth",
       "Street", "City", "State", "PostalCode", "Country"] ∧
    (∀ fe ∈ validateStruct r,
      errorMessage fe = fe.field ++ " is required" ∨
      errorMessage fe = fe.field ++ " must be a valid email address" ∨
      errorMessage fe =
        fe.field ++ " must be at least " ++ fe.param ++ " characters long" ∨
      errorMessage fe =
        fe.field ++ " must be at most " ++ fe.param ++ " characters long" ∨
      errorMessage fe = fe.field ++ " must be in YYYY-MM-DD format") ∧
    formatValidationError (validateStruct badReq) =
      "FirstName is required; Email must be a valid email address" := by
  refine ⟨validateStruct_fields r, ?_, rfl⟩
  intro fe hfe
  rcases mem_validateStruct_tag r fe hfe with h | h | h | h | h <;>
    simp [errorMessage, h]

/-- Witness for the amended C3 on the spec's example request. -/
theorem validation_messages_shape_witness :
    formatValidationError (validateStruct badReq) =
      "FirstName is required; Email must be a valid email address" :=
  (validation_messages_shape badReq).2.2

/-- C4: the trimmed creation request passes validation iff every field
constraint holds: first and last name present with trimmed length 2-50,
email non-empty and syntactically valid, phone (if present) of trimmed
length 10-15, date of birth (if present) an ISO YYYY-MM-DD calendar date,
and each address sub-field (if present) within its length bound. The
validation pass is a pure function returning the full list of violations,
never a partial result. -/
theorem validate_accepts_iff (r : CreateUserRequest) :
    validateStruct (trimRequest r) = [] ↔
      (trimSpace r.firstName ≠ "" ∧ 2 ≤ (trimSpace r.firstName).length ∧
        (trimSpace r.firstName).length ≤ 50) ∧
      (trimSpace r.lastName ≠ "" ∧ 2 ≤ (trimSpace r.lastName).length ∧
        (trimSpace r.lastName).length ≤ 50) ∧
      (trimSpace r.email ≠ "" ∧ isValidEmail (trimSpace r.email) = true) ∧
      (trimSpace r.phone = "" ∨
        (10 ≤ (trimSpace r.phone).length ∧ (trimSpace r.phone).length ≤ 15)) ∧
      (trimSpace r.dateOfBirth = "" ∨
        isValidDate (trimSpace r.dateOfBirth) = true) ∧
      (∀ a, r.address = some a →
        (a.street = "" ∨ a.street.length ≤ 100) ∧
        (a.city = "" ∨ a.city.length ≤ 50) ∧
        (a.state = "" ∨ a.state.length ≤ 50) ∧
        (a.postalCode = "" ∨ a.postalCode.length ≤ 20) ∧
        (a.country = "" ∨ a.country.length ≤ 50)) := by
  simp only [validateStruct, trimRequest, List.append_eq_nil,
    checkRequiredLen_eq_nil_iff, checkEmailField_eq_nil_iff,
    checkOptionalLen_eq_nil_iff, checkDateOfBirth_eq_nil_iff,
    checkAddress_eq_nil_iff]
  tauto

/-- Counterexample to C5: address sub-fields are not trimmed. A valid
request whose street carries leading/trailing whitespace passes validation
and stores the street verbatim, so the stored record differs from the one
built from the whitespace-free input. -/
theorem trim_address_cex :
    validateStruct (trimRequest wsReq) = [] ∧
    validateStruct (trimRequest plainReq) = [] ∧
    trimSpace wsAddr.street ≠ wsAddr.street ∧
    (trimRequest wsReq).address = some wsAddr ∧
    newUser (trimRequest wsReq) "u1" 0 ≠ newUser (trimRequest plainReq) "u1" 0 := by
  refine ⟨by decide, by decide, by decide, by decide, by decide⟩

/-- C5 (amended): exactly the five scalar string fields - first name, last
name, email, phone, date of birth - are trimmed before validation and before
storage; the address sub-fields are passed through unchanged. Hence two
requests that agree on the trimmed scalar fields and exactly on the address
are processed to the same request and stored as the same record. -/
theorem trim_scalar_fields (r r' : CreateUserRequest) (id : String) (now : Nat)
    (h1 : trimSpace r'.firstName = trimSpace r.firstName)
    (h2 : trimSpace r'.lastName = trimSpace r.lastName)
    (h3 : trimSpace r'.email = trimSpace r.email)
    (h4 : trimSpace r'.phone = trimSpace r.phone)
    (h5 : trimSpace r'.dateOfBirth = trimSpace r.dateOfBirth)
    (h6 : r'.address = r.address) :
    trimRequest r' = trimRequest r ∧
    (trimRequest r).firstName = trimSpace r.firstName ∧
    (trimRequest r).lastName = trimSpace r.lastName ∧
    (trimRequest r).email = trimSpace r.email ∧
    (trimRequest r).phone = trimSpace r.phone ∧
    (trimRequest r).dateOfBirth = trimSpace r.dateOfBirth ∧
    (trimRequest r).address = r.address ∧
    newUser (trimRequest r') id now = newUser (trimRequest r) id now := by
  have key : trimRequest r' = trimRequest r := by
    unfold trimRequest
    rw [h1, h2, h3, h4, h5, h6]
  exact ⟨key, rfl, rfl, rfl, rfl, rfl, rfl, by rw [key]⟩

/-- Witness for the amended C5: the request with whitespace around every
scalar field trims to the whitespace-free request. -/
theorem trim_scalar_fields_witness :
    trimSpace wsScalarReq.firstName = trimSpace plainScalarReq.firstName ∧
    trimRequest wsScalarReq = trimRequest plainScalarReq :=
  ⟨by decide,
    (trim_scalar_fields plainScalarReq wsScalarReq "u9" 1 (by decide)
      (by decide) (by decide) (by decide) (by decide) rfl).1⟩

end UserApi
